import Mathlib

/-!
# SmartConnect JavaScript extractor — verification development

Shallow embedding of the extraction pipeline of this repository:
the name sanitizer (`safeFilename`), resource discovery (`findJsUrls`),
the in-memory job store (`MemStorage`), and the extraction orchestrator
(`extractJavaScript`).  Network transport, HTML tag parsing and relative
URL resolution are external collaborators of the source (axios, cheerio,
node:url) and are modelled as explicit capabilities in an `Env` record;
the file system is modelled as infallible (its contents appear as the
manifest/outcome data in the run result).

Strings are processed through their character lists with structurally
recursive helpers so that every definition evaluates by `decide`/`rfl`.
-/

/-- ECMAScript whitespace (the `\s` character class of JS regexes and the
characters removed by `String.prototype.trim`). -/
def jsWhitespace (c : Char) : Bool :=
  c = ' ' || c = '\t' || c = '\n' || c = '\r' ||
  c.toNat = 0x0b || c.toNat = 0x0c || c.toNat = 0xa0 || c.toNat = 0x1680 ||
  (0x2000 ≤ c.toNat && c.toNat ≤ 0x200a) || c.toNat = 0x2028 ||
  c.toNat = 0x2029 || c.toNat = 0x202f || c.toNat = 0x205f ||
  c.toNat = 0x3000 || c.toNat = 0xfeff

/-- `String.prototype.trim` on a character list. -/
def trimChars (l : List Char) : List Char :=
  ((l.dropWhile jsWhitespace).reverse.dropWhile jsWhitespace).reverse

/-- ASCII lower-casing, enough for the `.js`-extension comparison that
`findJsUrls` performs via `toLowerCase()`. -/
def lowerChars (l : List Char) : List Char :=
  l.map Char.toLower

/-- `endsWith` on character lists. -/
def endsWithChars (l suf : List Char) : Bool :=
  if suf.length ≤ l.length then l.drop (l.length - suf.length) == suf else false

/-- Value of a hexadecimal digit. -/
def hexDigit (c : Char) : Option Nat :=
  if '0' ≤ c ∧ c ≤ '9' then some (c.toNat - '0'.toNat)
  else if 'a' ≤ c ∧ c ≤ 'f' then some (c.toNat - 'a'.toNat + 10)
  else if 'A' ≤ c ∧ c ≤ 'F' then some (c.toNat - 'A'.toNat + 10)
  else none

/-- UTF-8 continuation byte (0x80–0xBF). -/
def contByte (b : Nat) : Bool := 128 ≤ b && b ≤ 191

/-- Percent-decoding as performed by ECMAScript `decodeURIComponent`
(the `Decode` abstract operation with an empty reserved set): a `%` must
be followed by two hex digits; a decoded byte with the high bit set must
open a complete, valid UTF-8 sequence, each further byte itself written
as a `%XX` escape.  `none` models the thrown `URIError`. -/
def decodeSeq : List Char → Option (List Char)
  | [] => some []
  | '%' :: c1 :: c2 :: rest =>
    match hexDigit c1, hexDigit c2 with
    | some h, some l =>
      let b := 16 * h + l
      if b < 128 then (decodeSeq rest).map (Char.ofNat b :: ·)
      else if 194 ≤ b ∧ b ≤ 223 then
        match rest with
        | '%' :: d1 :: d2 :: rest2 =>
          match hexDigit d1, hexDigit d2 with
          | some h2, some l2 =>
            let b2 := 16 * h2 + l2
            if contByte b2 then
              (decodeSeq rest2).map (Char.ofNat ((b - 192) * 64 + (b2 - 128)) :: ·)
            else none
          | _, _ => none
        | _ => none
      else if 224 ≤ b ∧ b ≤ 239 then
        match rest with
        | '%' :: d1 :: d2 :: '%' :: e1 :: e2 :: rest2 =>
          match hexDigit d1, hexDigit d2, hexDigit e1, hexDigit e2 with
          | some h2, some l2, some h3, some l3 =>
            let b2 := 16 * h2 + l2
            let b3 := 16 * h3 + l3
            if contByte b2 && contByte b3 &&
               (if b = 224 then 160 ≤ b2 else true) &&
               (if b = 237 then b2 ≤ 159 else true) then
              (decodeSeq rest2).map
                (Char.ofNat ((b - 224) * 4096 + (b2 - 128) * 64 + (b3 - 128)) :: ·)
            else none
          | _, _, _, _ => none
        | _ => none
      else if 240 ≤ b ∧ b ≤ 244 then
        match rest with
        | '%' :: d1 :: d2 :: '%' :: e1 :: e2 :: '%' :: f1 :: f2 :: rest2 =>
          match hexDigit d1, hexDigit d2, hexDigit e1, hexDigit e2,
                hexDigit f1, hexDigit f2 with
          | some h2, some l2, some h3, some l3, some h4, some l4 =>
            let b2 := 16 * h2 + l2
            let b3 := 16 * h3 + l3
            let b4 := 16 * h4 + l4
            if contByte b2 && contByte b3 && contByte b4 &&
               (if b = 240 then 144 ≤ b2 else true) &&
               (if b = 244 then b2 ≤ 143 else true) then
              (decodeSeq rest2).map
                (Char.ofNat ((b - 240) * 262144 + (b2 - 128) * 4096 +
                             (b3 - 128) * 64 + (b4 - 128)) :: ·)
            else none
          | _, _, _, _, _, _ => none
        | _ => none
      else none
    | _, _ => none
  | '%' :: _ :: [] => none
  | '%' :: [] => none
  | c :: rest => (decodeSeq rest).map (c :: ·)

/-- `decodeURIComponent`; `none` models the thrown `URIError`. -/
def decodeURIComponent (s : String) : Option String :=
  (decodeSeq s.toList).map String.mk

/-- The characters the sanitizer's first `replace` rewrites to `_`. -/
def specialChar (c : Char) : Bool :=
  c = ':' || c = '\\' || c = '/' || c = '<' || c = '>' ||
  c = '?' || c = '"' || c = '|' || c = '*'

/-- `/\s+/g → "_"`: each maximal whitespace run becomes one underscore. -/
def collapseWsAux : Bool → List Char → List Char
  | _, [] => []
  | inRun, c :: rest =>
    if jsWhitespace c then
      if inRun then collapseWsAux true rest
      else '_' :: collapseWsAux true rest
    else c :: collapseWsAux false rest

def collapseWs (l : List Char) : List Char := collapseWsAux false l

/-- `JSExtractor.safeFilename`: percent-decode (which can throw, modelled
by `none`), replace the special characters with `_`, collapse whitespace
runs to `_`, fall back to `"file"` when empty. -/
def safeFilename (name : String) : Option String :=
  match decodeURIComponent name with
  | none => none
  | some d =>
    let r := collapseWs ((d.toList).map (fun c => if specialChar c then '_' else c))
    some (if r = [] then "file" else String.mk r)

/-! ## URL parsing (model of the WHATWG `URL` constructor, node:url) -/

def schemeChar (c : Char) : Bool :=
  c.isAlpha || c.isDigit || c = '+' || c = '-' || c = '.'

def takeSchemeAux (acc : List Char) :
    List Char → Option (List Char × List Char)
  | [] => none
  | c :: rest =>
    if c = ':' then some (acc.reverse, rest)
    else if schemeChar c then takeSchemeAux (c :: acc) rest
    else none

/-- Splits `scheme ":" rest`; `none` when the input has no scheme
(first character not a letter, a non-scheme character before any colon,
or no colon at all). -/
def takeScheme (l : List Char) : Option (List Char × List Char) :=
  match l with
  | [] => none
  | c :: rest => if c.isAlpha then takeSchemeAux [c] rest else none

structure UrlParts where
  scheme : String
  hostname : String
  pathname : String
deriving DecidableEq

/-- Modelled behavior of the one-argument WHATWG `new URL(input)` used by
`storage.createExtractionJob` and the orchestrator: the input must carry a
scheme or parsing throws (`none`); after `scheme://` the authority runs to
the next `/ : ? #`, an empty authority is rejected, a port is skipped, and
an empty path becomes `/`.  Without `//` the remainder is an opaque path.
(Unicode host normalization and other fringes of the full standard are out
of scope; no claim depends on them.) -/
def parseUrl (s : String) : Option UrlParts :=
  match takeScheme s.toList with
  | none => none
  | some (sch, rest) =>
    match rest with
    | '/' :: '/' :: rest2 =>
      let host := rest2.takeWhile
        (fun c => !(c = '/' || c = ':' || c = '?' || c = '#'))
      if host = [] then none
      else
        let after := rest2.drop host.length
        let afterPort :=
          match after with
          | ':' :: r => r.dropWhile Char.isDigit
          | _ => after
        let pathPart := afterPort.takeWhile (fun c => !(c = '?' || c = '#'))
        some ⟨String.mk sch, String.mk host,
              if pathPart = [] then "/" else String.mk pathPart⟩
    | _ =>
      some ⟨String.mk sch, "",
            String.mk (rest.takeWhile (fun c => !(c = '?' || c = '#')))⟩

/-- `url.startsWith('http')` — the orchestrator's normalization test. -/
def startsWithHttp (s : String) : Bool :=
  match s.toList with
  | 'h' :: 't' :: 't' :: 'p' :: _ => true
  | _ => false

/-- Scheme normalization at the head of `extractJavaScript`:
`if (!url.startsWith('http')) url = 'https://' + url`. -/
def normalizeUrl (url : String) : String :=
  if startsWithHttp url then url else "https://" ++ url

/-- Modelled from the spec: a requested URL "lacks a scheme" when it does
not begin with `letter (letter | digit | + | - | .)* ":"` (generic URI
scheme syntax); used only to state what the spec's normalization sentence
demands, for comparison with `normalizeUrl`. -/
def hasScheme (s : String) : Bool :=
  (takeScheme s.toList).isSome

/-- Node `path.posix.basename` (no extension argument): ignore trailing
slashes, then keep everything after the last `/`; all-slash input gives
`/`, empty input gives the empty string. -/
def basenameChars (p : List Char) : List Char :=
  let trimmed := (p.reverse.dropWhile (fun c => c = '/')).reverse
  if trimmed = [] then (if p = [] then [] else ['/'])
  else (trimmed.reverse.takeWhile (fun c => !(c = '/'))).reverse

/-- `fileIndex.toString().padStart(3, '0')`. -/
def pad3 (n : Nat) : String :=
  let s := toString n
  String.mk (List.replicate (3 - s.length) '0') ++ s

/-! ## Data model (shared schema) and `MemStorage` -/

inductive JobStatus
  | pending
  | processing
  | completed
  | failed
deriving DecidableEq

inductive LogType
  | info
  | success
  | error
  | progress
deriving DecidableEq

structure LogEntry where
  type : LogType
  message : String
deriving DecidableEq

inductive FileStatus
  | success
  | failed
deriving DecidableEq

/-- One row of the JS-files table (`storage.createJsFile` record). -/
structure JsFile where
  jobId : String
  originalUrl : String
  filename : String
  size : Option Nat
  status : FileStatus
  errorMessage : Option String
deriving DecidableEq

/-- An extraction-job record.  Timestamps are abstracted to `Nat` ticks;
`completedAt` is `none` until the terminal transition sets it. -/
structure ExtractionJob where
  id : String
  url : String
  domain : String
  status : JobStatus
  totalFiles : Nat
  successfulFiles : Nat
  failedFiles : Nat
  totalSize : Nat
  logs : List LogEntry
  createdAt : Nat
  completedAt : Option Nat
deriving DecidableEq

/-- `Partial<ExtractionJob>`: every field optionally present.  A present
`completedAt` carries an `Option Nat` (the column is nullable). -/
structure JobUpdate where
  id : Option String := none
  url : Option String := none
  domain : Option String := none
  status : Option JobStatus := none
  totalFiles : Option Nat := none
  successfulFiles : Option Nat := none
  failedFiles : Option Nat := none
  totalSize : Option Nat := none
  logs : Option (List LogEntry) := none
  createdAt : Option Nat := none
  completedAt : Option (Option Nat) := none
deriving DecidableEq

/-- The object spread `{ ...job, ...updates }`: fields present in the
update win, absent fields keep the stored value. -/
def mergeJob (j : ExtractionJob) (u : JobUpdate) : ExtractionJob where
  id := u.id.getD j.id
  url := u.url.getD j.url
  domain := u.domain.getD j.domain
  status := u.status.getD j.status
  totalFiles := u.totalFiles.getD j.totalFiles
  successfulFiles := u.successfulFiles.getD j.successfulFiles
  failedFiles := u.failedFiles.getD j.failedFiles
  totalSize := u.totalSize.getD j.totalSize
  logs := u.logs.getD j.logs
  createdAt := u.createdAt.getD j.createdAt
  completedAt := u.completedAt.getD j.completedAt

/-- `MemStorage.jobs`: a `Map<string, ExtractionJob>` in insertion order. -/
abbrev Store := List (String × ExtractionJob)

/-- `Map.get`. -/
def getJob : Store → String → Option ExtractionJob
  | [], _ => none
  | (k, v) :: rest, id => if k = id then some v else getJob rest id

/-- `Map.set`: replace in place, else append. -/
def setJob : Store → String → ExtractionJob → Store
  | [], id, j => [(id, j)]
  | (k, v) :: rest, id, j =>
    if k = id then (id, j) :: rest else (k, v) :: setJob rest id j

/-- `MemStorage.updateExtractionJob`: merge the partial update into the
stored record, or signal `none` (not a fault) for an absent id, leaving
the store untouched. -/
def updateExtractionJob (st : Store) (id : String) (u : JobUpdate) :
    Option ExtractionJob × Store :=
  match getJob st id with
  | none => (none, st)
  | some j =>
    let m := mergeJob j u
    (some m, setJob st id m)

/-- `MemStorage.createExtractionJob`: the fresh record parses the raw
request URL (`new URL(insertJob.url).hostname`) with no normalization, so
`none` models the `TypeError` thrown on a scheme-less input.  The random
UUID and the clock are passed in as `id` and `now`. -/
def createExtractionJob (st : Store) (id : String) (now : Nat)
    (url : String) : Option (ExtractionJob × Store) :=
  match parseUrl url with
  | none => none
  | some p =>
    let job : ExtractionJob :=
      { id := id, url := url, domain := p.hostname, status := .pending
        totalFiles := 0, successfulFiles := 0, failedFiles := 0
        totalSize := 0, logs := [], createdAt := now, completedAt := none }
    some (job, setJob st id job)

/-! ## Transport and markup capabilities -/

/-- A successful axios response: HTTP status and body (bytes as text). -/
structure FetchOk where
  httpStatus : Nat
  body : String
deriving DecidableEq

/-- A failed axios request: `responseStatus`/`statusText` when an HTTP
response outside the success range was received, otherwise only the
transport error `message`. -/
structure FetchErr where
  responseStatus : Option Nat
  statusText : String
  message : String
deriving DecidableEq

/-- Result of `new URL(src, baseUrl)` in `findJsUrls`: the serialized
absolute URL (`toString()`) and its `pathname`. -/
structure ResolvedUrl where
  toStr : String
  pathname : String
deriving DecidableEq

/-- External collaborators of one `extractJavaScript` run: cheerio's
`script[src]` attribute extraction, relative URL resolution, the page
fetch, the per-resource fetches (indexed by loop position and URL), and
the clock supplying `completedAt`. -/
structure Env where
  scriptSrcs : String → List String
  resolve : String → String → Option ResolvedUrl
  pageFetch : Except FetchErr FetchOk
  resourceFetch : Nat → String → Except FetchErr FetchOk
  now : Nat

/-- Error message computed by the per-resource `catch` block. -/
def fetchErrMsg (e : FetchErr) : String :=
  match e.responseStatus with
  | some n =>
    "HTTP " ++ toString n ++ " - " ++
      (if e.statusText = "" then "Request failed" else e.statusText)
  | none => if e.message = "" then "Unknown error" else e.message

/-- Error message computed by the top-level `catch` block. -/
def pipelineErrMsg (e : FetchErr) (url : String) : String :=
  match e.responseStatus with
  | some n =>
    "HTTP " ++ toString n ++ " - " ++
      (if e.statusText = "" then "Request failed" else e.statusText) ++
      " when fetching: " ++ url
  | none => if e.message = "" then "Unknown error occurred" else e.message

/-! ## Resource discovery (`findJsUrls`) -/

/-- First-occurrence deduplication with an accumulator of already seen
strings: the behavior of `Array.from(new Set(urls))`, whose iteration
order is insertion order. -/
def dedupFirst (seen : List String) : List String → List String
  | [] => []
  | x :: xs =>
    if x ∈ seen then dedupFirst seen xs else x :: dedupFirst (x :: seen) xs

/-- Index of the first occurrence of `u` in `l` (length of `l` when
absent); used to state that deduplication preserves first-seen order. -/
def firstIdx (l : List String) (u : String) : Nat :=
  match l with
  | [] => 0
  | x :: xs => if x = u then 0 else firstIdx xs u + 1

/-- The per-tag body of `findJsUrls`: trim the `src` attribute, skip it
when empty, resolve it against the base URL (`none` = the caught URL
constructor throw, silently skipped), keep the serialization when the
resolved `pathname` ends in `.js` case-insensitively. -/
def jsCandidate (env : Env) (base : String) (s : String) : Option String :=
  if trimChars s.toList = [] then none
  else
    match env.resolve (String.mk (trimChars s.toList)) base with
    | none => none
    | some u =>
      if endsWithChars (lowerChars u.pathname.toList) ['.', 'j', 's']
      then some u.toStr else none

/-- All candidate URLs of a `src` attribute list, pre-deduplication. -/
def jsCandidates (env : Env) (srcs : List String) (base : String) :
    List String :=
  srcs.filterMap (jsCandidate env base)

/-- `JSExtractor.findJsUrls` over the attribute values that the markup
capability extracts: filter and resolve, then deduplicate keeping
first-seen order. -/
def findJsUrls (env : Env) (srcs : List String) (base : String) :
    List String :=
  dedupFirst [] (jsCandidates env srcs base)

/-! ## The per-resource loop -/

/-- The fallible part of one loop iteration (the `try` block up to the
point where all per-resource data is known): fetch the resource, reparse
its URL, sanitize the basename.  `Except.error` carries the message the
`catch` block would compute (`"Invalid URL"` is the `TypeError` of a
failed reparse, `"URI malformed"` the `URIError` of `decodeURIComponent`).
On success it yields the local filename and the byte size. -/
def attemptFetch (env : Env) (i : Nat) (jsUrl : String) :
    Except String (String × Nat) :=
  match env.resourceFetch i jsUrl with
  | .error e => .error (fetchErrMsg e)
  | .ok r =>
    match parseUrl jsUrl with
    | none => .error "Invalid URL"
    | some u =>
      let b := basenameChars u.pathname.toList
      let origName := if b = [] then "script_" ++ toString (i + 1) ++ ".js"
                      else String.mk b
      match safeFilename origName with
      | none => .error "URI malformed"
      | some safe => .ok (pad3 (i + 1) ++ "_" ++ safe, r.body.length)

/-- Whether iteration `i` on `jsUrl` lands in the success branch. -/
def attemptOk (env : Env) (i : Nat) (jsUrl : String) : Bool :=
  match attemptFetch env i jsUrl with
  | .ok _ => true
  | .error _ => false

/-- The success/failure outcome of each iteration, in loop order,
starting at 0-based position `i`. -/
def tagList (env : Env) (i : Nat) : List String → List Bool
  | [] => []
  | u :: rest => attemptOk env i u :: tagList env (i + 1) rest

inductive LineTag
  | ok
  | error
deriving DecidableEq

/-- One data line of `manifest.txt`:
`<index>\t<url>\t{OK|ERROR}\t<filename or errorMessage>`. -/
structure ManifestLine where
  idx : Nat
  url : String
  tag : LineTag
  info : String
deriving DecidableEq

/-- `manifest.txt`: the two header lines and the data lines. -/
structure Manifest where
  sourceUrl : String
  count : Nat
  lines : List ManifestLine
deriving DecidableEq

/-- Mutable state of the download loop: the counters, the created
JS-file rows, the manifest data lines, the fetched URLs in fetch order,
and the emitted log entries. -/
structure LoopState where
  successCount : Nat
  totalSize : Nat
  outcomes : List JsFile
  mlines : List ManifestLine
  attempted : List String
  logs : List LogEntry
deriving DecidableEq

/-- One iteration of the download loop (`for (let i = 0; ...)` body). -/
def runStep (env : Env) (jobId : String) (total : Nat) (i : Nat)
    (jsUrl : String) (st : LoopState) : LoopState :=
  let fileIndex := i + 1
  let logP : LogEntry :=
    ⟨.progress, "[" ++ toString fileIndex ++ "/" ++ toString total ++ "] " ++ jsUrl⟩
  match attemptFetch env i jsUrl with
  | .ok (fname, size) =>
    { successCount := st.successCount + 1
      totalSize := st.totalSize + size
      outcomes := st.outcomes ++ [⟨jobId, jsUrl, fname, some size, .success, none⟩]
      mlines := st.mlines ++ [⟨fileIndex, jsUrl, .ok, fname⟩]
      attempted := st.attempted ++ [jsUrl]
      logs := st.logs ++ [logP, ⟨.success, "    Saved → " ++ fname⟩] }
  | .error msg =>
    { successCount := st.successCount
      totalSize := st.totalSize
      outcomes := st.outcomes ++
        [⟨jobId, jsUrl, "failed_" ++ toString fileIndex ++ ".js", none, .failed, some msg⟩]
      mlines := st.mlines ++ [⟨fileIndex, jsUrl, .error, msg⟩]
      attempted := st.attempted ++ [jsUrl]
      logs := st.logs ++ [logP, ⟨.error, "    Error: " ++ msg⟩] }

/-- The download loop over the discovered URLs. -/
def runLoop (env : Env) (jobId : String) (total : Nat) :
    Nat → List String → LoopState → LoopState
  | _, [], st => st
  | i, u :: rest, st =>
    runLoop env jobId total (i + 1) rest (runStep env jobId total i u st)

/-! ## The orchestrator (`JSExtractor.extractJavaScript`) -/

/-- Everything one run leaves behind: the job record's final value, the
JS-file rows created, the manifest (written only when the loop ran), and
the URLs fetched in order. -/
structure RunResult where
  job : ExtractionJob
  outcomes : List JsFile
  manifest : Option Manifest
  attempted : List String
deriving DecidableEq

/-- `JSExtractor.addLog` followed by the log update it performs: read the
job's log list, append one entry, merge it back.  (The source fires this
without awaiting it — a latent ordering hazard flagged by the spec; the
model applies it synchronously, which is the order the log lines are
emitted in.) -/
def addLog (j : ExtractionJob) (t : LogType) (m : String) : ExtractionJob :=
  mergeJob j { logs := some (j.logs ++ [⟨t, m⟩]) }

/-- Terminal update of the top-level `catch` block. -/
def failJob (env : Env) (j : ExtractionJob) (msg : String) : ExtractionJob :=
  mergeJob (addLog j .error ("Extraction failed: " ++ msg))
    { status := some .failed, completedAt := some (some env.now) }

/-- `JSExtractor.extractJavaScript`, threaded over the job record it
updates through the store (the store round-trips themselves are the
`mergeJob` calls; `updateExtractionJob`'s merge semantics are verified
separately).  The file system and the directory setup are infallible
collaborators; the fallible steps are URL parsing and the fetches. -/
def extractJavaScript (env : Env) (job0 : ExtractionJob) : RunResult :=
  let url0 := job0.url
  let j1 := addLog (mergeJob job0 { status := some .processing })
    .info ("Starting extraction for: " ++ url0)
  let url := normalizeUrl url0
  match parseUrl url with
  | none =>
    { job := failJob env j1 "Invalid URL", outcomes := [], manifest := none
      attempted := [] }
  | some pu =>
    let outputDir := "downloads/" ++ pu.hostname
    let j2 := addLog j1 .info ("Created download directory: " ++ outputDir)
    let j3 := addLog j2 .info ("Fetching page: " ++ url)
    match env.pageFetch with
    | .error e =>
      { job := failJob env j3 (pipelineErrMsg e url), outcomes := []
        manifest := none, attempted := [] }
    | .ok page =>
      let j4 := addLog j3 .success ("Saved page HTML → " ++ outputDir ++ "/page.html")
      let jsUrls := findJsUrls env (env.scriptSrcs page.body) url
      if jsUrls.length = 0 then
        { job := mergeJob (addLog j4 .info "No external .js files found.")
            { status := some .completed, totalFiles := some 0
              completedAt := some (some env.now) }
          outcomes := [], manifest := none, attempted := [] }
      else
        let j5 := mergeJob (addLog j4 .success
            ("Found " ++ toString jsUrls.length ++ " .js files. Downloading..."))
          { totalFiles := some jsUrls.length }
        let st := runLoop env job0.id jsUrls.length 0 jsUrls ⟨0, 0, [], [], [], []⟩
        let j6 := mergeJob { j5 with logs := j5.logs ++ st.logs }
          { status := some .completed
            successfulFiles := some st.successCount
            failedFiles := some (jsUrls.length - st.successCount)
            totalSize := some st.totalSize
            completedAt := some (some env.now) }
        { job := addLog j6 .success ("Done. Files saved in " ++ outputDir)
          outcomes := st.outcomes
          manifest := some ⟨url, jsUrls.length, st.mlines⟩
          attempted := st.attempted }

/-- The resource URLs discovery produces for this run ( `[]` when the
pipeline fails before discovery). -/
def discoveredUrls (env : Env) (job0 : ExtractionJob) : List String :=
  match parseUrl (normalizeUrl job0.url), env.pageFetch with
  | some _, .ok page =>
    findJsUrls env (env.scriptSrcs page.body) (normalizeUrl job0.url)
  | _, _ => []

/-- Number of data lines of the manifest artifact (0 when none was
written). -/
def manifestLineCount (r : RunResult) : Nat :=
  match r.manifest with
  | none => 0
  | some m => m.lines.length

/-! ## Concrete instances (used by the witnesses) -/

/-- A fetched page; the markup itself is irrelevant because the markup
capability of each concrete environment fixes the extracted `src` list. -/
def page3 : FetchOk := ⟨200, "<html></html>"⟩

/-- A transport-level failure (no HTTP response). -/
def errT : FetchErr := ⟨none, "", "socket hang up"⟩

/-- Three scripts on the page; the fetch of the second one fails. -/
def env3 : Env where
  scriptSrcs := fun _ => ["/a.js", "/b.js", "/c.js"]
  resolve := fun src _ => some ⟨"https://example.com" ++ src, src⟩
  pageFetch := .ok page3
  resourceFetch := fun i _ => if i = 1 then .error errT else .ok ⟨200, "console.log(1);"⟩
  now := 7

def job3 : ExtractionJob :=
  ⟨"job-1", "https://example.com", "example.com", .pending, 0, 0, 0, 0, [], 5, none⟩

def pu3 : UrlParts := ⟨"https", "example.com", "/"⟩

/-- A page with no external scripts. -/
def envZero : Env where
  scriptSrcs := fun _ => []
  resolve := fun _ _ => none
  pageFetch := .ok page3
  resourceFetch := fun _ _ => .error errT
  now := 9

def jobZ : ExtractionJob :=
  ⟨"job-2", "example.org", "example.org", .pending, 0, 0, 0, 0, [], 6, none⟩

def puZ : UrlParts := ⟨"https", "example.org", "/"⟩

/-- An HTTP 503 failure carried by the axios error. -/
def err503 : FetchErr :=
  ⟨some 503, "Service Unavailable", "Request failed with status code 503"⟩

/-- The page fetch itself fails with an HTTP 503. -/
def envFail : Env where
  scriptSrcs := fun _ => []
  resolve := fun _ _ => none
  pageFetch := .error err503
  resourceFetch := fun _ _ => .error errT
  now := 11

/-- Discovery fixture: one duplicated reference (given once untrimmed),
one unresolvable reference, one whitespace-only attribute, one non-script
reference, one upper-cased extension. -/
def envDisc : Env where
  scriptSrcs := fun _ => []
  resolve := fun src _ =>
    if src = "bad" then none else some ⟨"https://h/" ++ src, "/" ++ src⟩
  pageFetch := .ok page3
  resourceFetch := fun _ _ => .error errT
  now := 0

def srcsDisc : List String := ["x.js", "  x.js  ", "bad", " ", "y.txt", "Y.JS"]

/-- Storage fixture for the update-semantics witness. -/
def storeA : Store := [("job-1", job3), ("job-9", jobZ)]

def updA : JobUpdate := { status := some .processing, totalFiles := some 4 }

/-! ## Sanity checks -/

example : safeFilename "a b/c:d" = some "a_b_c_d" := by decide
example : safeFilename "" = some "file" := by decide
example : safeFilename "%" = none := by decide
example : safeFilename "caf%e9.js" = none := by decide
example : safeFilename "caf%C3%A9.js" = some "café.js" := by decide
example : safeFilename "a%20b" = some "a_b" := by decide
example : parseUrl "example.com" = none := by decide
example : parseUrl "https://example.com" = some ⟨"https", "example.com", "/"⟩ := by decide
example : parseUrl "https://example.com/a.js?v=1" =
    some ⟨"https", "example.com", "/a.js"⟩ := by decide
example : basenameChars "/a/b.js".toList = "b.js".toList := by decide
example : basenameChars "/".toList = "/".toList := by decide
example : pad3 1 = "001" := by decide
example : pad3 1234 = "1234" := by decide
example : findJsUrls envDisc srcsDisc "https://h/" =
    ["https://h/x.js", "https://h/Y.JS"] := by decide
example : (extractJavaScript env3 job3).job.successfulFiles = 2 := by decide
example : (extractJavaScript env3 job3).job.failedFiles = 1 := by decide
example : (extractJavaScript env3 job3).job.status = .completed := by decide
example : (extractJavaScript env3 job3).attempted =
    ["https://example.com/a.js", "https://example.com/b.js",
     "https://example.com/c.js"] := by decide
example : (extractJavaScript env3 job3).manifest =
    some ⟨"https://example.com", 3,
      [⟨1, "https://example.com/a.js", .ok, "001_a.js"⟩,
       ⟨2, "https://example.com/b.js", .error, "socket hang up"⟩,
       ⟨3, "https://example.com/c.js", .ok, "003_c.js"⟩]⟩ := by decide
example : (extractJavaScript envZero jobZ).job.status = .completed := by decide
example : (extractJavaScript envZero jobZ).job.totalFiles = 0 := by decide
example : (extractJavaScript envFail jobZ).job.status = .failed := by decide

/-! ## Helper lemmas -/

theorem mem_dedupFirst (l : List String) : ∀ (seen : List String) (u : String),
    u ∈ dedupFirst seen l ↔ u ∈ l ∧ u ∉ seen := by
  induction l with
  | nil => intro seen u; simp [dedupFirst]
  | cons x xs ih =>
    intro seen u
    by_cases hx : x ∈ seen
    · rw [show dedupFirst seen (x :: xs) = dedupFirst seen xs from
        by simp [dedupFirst, hx]]
      rw [ih]
      constructor
      · rintro ⟨hu, hs⟩; exact ⟨List.mem_cons_of_mem x hu, hs⟩
      · rintro ⟨hu, hs⟩
        rcases List.mem_cons.mp hu with h | h
        · exact absurd (h ▸ hx) hs
        · exact ⟨h, hs⟩
    · rw [show dedupFirst seen (x :: xs) = x :: dedupFirst (x :: seen) xs from
        by simp [dedupFirst, hx]]
      constructor
      · intro hm
        rcases List.mem_cons.mp hm with h | h
        · exact ⟨h ▸ List.mem_cons_self x xs, h ▸ hx⟩
        · obtain ⟨hu, hs⟩ := (ih (x :: seen) u).mp h
          exact ⟨List.mem_cons_of_mem x hu,
                 fun hc => hs (List.mem_cons_of_mem x hc)⟩
      · rintro ⟨hu, hs⟩
        by_cases hux : u = x
        · subst hux; exact List.mem_cons_self u _
        · rcases List.mem_cons.mp hu with h | h
          · exact absurd h hux
          · refine List.mem_cons_of_mem x ((ih (x :: seen) u).mpr ⟨h, ?_⟩)
            intro hc
            rcases List.mem_cons.mp hc with h2 | h2
            · exact hux h2
            · exact hs h2

theorem nodup_dedupFirst (l : List String) : ∀ (seen : List String),
    (dedupFirst seen l).Nodup := by
  induction l with
  | nil => intro seen; simp [dedupFirst]
  | cons x xs ih =>
    intro seen
    by_cases hx : x ∈ seen
    · simpa only [dedupFirst, if_pos hx] using ih seen
    · rw [show dedupFirst seen (x :: xs) = x :: dedupFirst (x :: seen) xs from
        by simp [dedupFirst, hx]]
      rw [List.nodup_cons]
      refine ⟨fun hc => ?_, ih _⟩
      exact ((mem_dedupFirst xs (x :: seen) x).mp hc).2 (List.mem_cons_self x seen)

theorem pairwise_firstIdx_dedupFirst (l : List String) : ∀ (seen : List String),
    (dedupFirst seen l).Pairwise (fun a b => firstIdx l a < firstIdx l b) := by
  induction l with
  | nil => intro seen; simp [dedupFirst]
  | cons x xs ih =>
    intro seen
    by_cases hx : x ∈ seen
    · rw [show dedupFirst seen (x :: xs) = dedupFirst seen xs from
        by simp [dedupFirst, hx]]
      refine (ih seen).imp_of_mem ?_
      intro a b ha hb hab
      have ha' := (mem_dedupFirst xs seen a).mp ha
      have hb' := (mem_dedupFirst xs seen b).mp hb
      have hax : ¬(x = a) := fun h => ha'.2 (h ▸ hx)
      have hbx : ¬(x = b) := fun h => hb'.2 (h ▸ hx)
      simp only [firstIdx, if_neg hax, if_neg hbx]
      omega
    · rw [show dedupFirst seen (x :: xs) = x :: dedupFirst (x :: seen) xs from
        by simp [dedupFirst, hx]]
      refine List.Pairwise.cons ?_ ?_
      · intro b hb
        have hb' := (mem_dedupFirst xs (x :: seen) b).mp hb
        have hbx : ¬(x = b) := fun h => hb'.2 (h ▸ List.mem_cons_self x seen)
        have e1 : firstIdx (x :: xs) x = 0 := by simp [firstIdx]
        have e2 : firstIdx (x :: xs) b = firstIdx xs b + 1 := by
          simp [firstIdx, hbx]
        rw [e1, e2]
        omega
      · refine (ih (x :: seen)).imp_of_mem ?_
        intro a b ha hb hab
        have ha' := (mem_dedupFirst xs (x :: seen) a).mp ha
        have hb' := (mem_dedupFirst xs (x :: seen) b).mp hb
        have hax : ¬(x = a) := fun h => ha'.2 (h ▸ List.mem_cons_self x seen)
        have hbx : ¬(x = b) := fun h => hb'.2 (h ▸ List.mem_cons_self x seen)
        simp only [firstIdx, if_neg hax, if_neg hbx]
        omega

theorem tagList_length (env : Env) : ∀ (urls : List String) (i : Nat),
    (tagList env i urls).length = urls.length := by
  intro urls
  induction urls with
  | nil => intro i; simp [tagList]
  | cons u rest ih => intro i; simp [tagList, ih]

theorem runLoop_spec (env : Env) (jobId : String) (total : Nat) :
    ∀ (urls : List String) (i : Nat) (st : LoopState),
    (runLoop env jobId total i urls st).attempted = st.attempted ++ urls ∧
    (runLoop env jobId total i urls st).outcomes.length =
      st.outcomes.length + urls.length ∧
    (runLoop env jobId total i urls st).mlines.map ManifestLine.tag =
      st.mlines.map ManifestLine.tag ++
        (tagList env i urls).map (fun b => if b then LineTag.ok else LineTag.error) ∧
    (runLoop env jobId total i urls st).mlines.map ManifestLine.url =
      st.mlines.map ManifestLine.url ++ urls ∧
    (runLoop env jobId total i urls st).mlines.length =
      st.mlines.length + urls.length ∧
    (runLoop env jobId total i urls st).successCount =
      st.successCount + (tagList env i urls).count true := by
  intro urls
  induction urls with
  | nil => intro i st; simp [runLoop, tagList]
  | cons u rest ih =>
    intro i st
    obtain ⟨h1, h2, h3, h4, h5, h6⟩ := ih (i + 1) (runStep env jobId total i u st)
    rcases hf : attemptFetch env i u with msg | v
    · refine ⟨?_, ?_, ?_, ?_, ?_, ?_⟩
      · rw [runLoop, h1]; simp [runStep, hf]
      · rw [runLoop, h2]; simp [runStep, hf]; omega
      · rw [runLoop, h3]; simp [runStep, hf, tagList, attemptOk]
      · rw [runLoop, h4]; simp [runStep, hf]
      · rw [runLoop, h5]; simp [runStep, hf]; omega
      · rw [runLoop, h6]; simp [runStep, hf, tagList, attemptOk]
    · refine ⟨?_, ?_, ?_, ?_, ?_, ?_⟩
      · rw [runLoop, h1]; simp [runStep, hf]
      · rw [runLoop, h2]; simp [runStep, hf]; omega
      · rw [runLoop, h3]; simp [runStep, hf, tagList, attemptOk]
      · rw [runLoop, h4]; simp [runStep, hf]
      · rw [runLoop, h5]; simp [runStep, hf]; omega
      · rw [runLoop, h6]; simp [runStep, hf, tagList, attemptOk]; omega

theorem getJob_setJob_self (st : Store) (id : String) (j : ExtractionJob) :
    getJob (setJob st id j) id = some j := by
  induction st with
  | nil => simp [setJob, getJob]
  | cons kv rest ih =>
    obtain ⟨k, v⟩ := kv
    by_cases hk : k = id
    · simp [setJob, hk, getJob]
    · simp [setJob, hk, getJob, ih]

theorem getJob_setJob_other (st : Store) (id id' : String) (j : ExtractionJob)
    (h : ¬(id' = id)) : getJob (setJob st id j) id' = getJob st id' := by
  have h' : ¬(id = id') := fun hc => h hc.symm
  induction st with
  | nil => simp [setJob, getJob, h']
  | cons kv rest ih =>
    obtain ⟨k, v⟩ := kv
    by_cases hk : k = id
    · subst hk
      simp [setJob, getJob, h']
    · simp [setJob, hk, getJob, ih]

/-! ## Claims -/

/-- C3: the claim states the name sanitizer is total and degrades to the
original segment on a malformed percent-encoded sequence.  The code calls
`decodeURIComponent` with no `try`/`catch`, so `safeFilename` propagates
the `URIError` on the input `"%"` (modelled by `none`) instead of
returning `"%"`: the claim describes the spec's stated intent and the
code deviates at exactly this point. -/
theorem c3_sanitizer_not_total : safeFilename "%" = none := by decide

/-- C8: the claim states that for every input the sanitizer performs
percent-decode, special-character and whitespace replacement, and the
empty fallback, returning a string.  On `"caf%e9.js"` (a malformed UTF-8
percent sequence) the code instead raises from `decodeURIComponent`
(modelled by `none`); on inputs that percent-decode, the claimed steps
and both quoted examples hold. -/
theorem c8_sanitizer_steps :
    safeFilename "caf%e9.js" = none ∧
    safeFilename "a b/c:d" = some "a_b_c_d" ∧
    safeFilename "" = some "file" := by decide

/-- C7 counterexample: `"httpserver.local"` lacks a scheme, yet the
orchestrator's normalization leaves it unchanged (it starts with the
literal `"http"`), contradicting the claim that every scheme-less URL is
prefixed with `https://`. -/
theorem c7_counterexample :
    hasScheme "httpserver.local" = false ∧
    normalizeUrl "httpserver.local" = "httpserver.local" ∧
    ¬("httpserver.local" = "https://" ++ "httpserver.local") := by decide

/-- C7 amended: the orchestrator prefixes `https://` exactly when the
requested URL does not start with the literal `"http"`; a URL starting
with `"http"` is left unchanged. -/
theorem c7_normalization_amended (url : String) :
    (normalizeUrl url = url ↔ startsWithHttp url = true) ∧
    (startsWithHttp url = false → normalizeUrl url = "https://" ++ url) := by
  constructor
  · constructor
    · intro h
      by_cases hs : startsWithHttp url = true
      · exact hs
      · exfalso
        rw [normalizeUrl, if_neg hs] at h
        have hlen := congrArg String.length h
        rw [String.length_append] at hlen
        have h8 : "https://".length = 8 := by decide
        omega
    · intro h; simp [normalizeUrl, h]
  · intro h; simp [normalizeUrl, h]

/-- C7 amended, witnessed at `"example.com"`: no `"http"` start, so the
normalization prefixes `https://`. -/
theorem c7_normalization_amended_witness :
    startsWithHttp "example.com" = false ∧
    normalizeUrl "example.com" = "https://" ++ "example.com" :=
  ⟨by decide, (c7_normalization_amended "example.com").2 (by decide)⟩

/-- C10: `createExtractionJob` derives the domain by parsing the raw
request URL — a string the URL parser rejects (no scheme) makes creation
raise (modelled by `none`) instead of producing a pending job, and a
parsed URL yields a pending job whose `domain` is the parsed hostname. -/
theorem c10_create_parses_raw_url (st : Store) (id : String) (now : Nat)
    (url : String) :
    (parseUrl url = none → createExtractionJob st id now url = none) ∧
    (∀ p, parseUrl url = some p →
      ∃ job, createExtractionJob st id now url = some (job, setJob st id job) ∧
        job.domain = p.hostname ∧ job.status = .pending ∧ job.url = url ∧
        job.totalFiles = 0 ∧ job.successfulFiles = 0 ∧ job.failedFiles = 0 ∧
        job.completedAt = none) := by
  constructor
  · intro h; simp [createExtractionJob, h]
  · intro p h
    simp only [createExtractionJob, h]
    exact ⟨_, rfl, rfl, rfl, rfl, rfl, rfl, rfl, rfl⟩

/-- C10 witnessed at `"example.com"`: creation raises on the scheme-less
input that the orchestrator would later normalize into a parseable URL. -/
theorem c10_create_parses_raw_url_witness :
    parseUrl "example.com" = none ∧
    createExtractionJob storeA "job-3" 0 "example.com" = none ∧
    parseUrl (normalizeUrl "example.com") = some ⟨"https", "example.com", "/"⟩ :=
  ⟨by decide,
   (c10_create_parses_raw_url storeA "job-3" 0 "example.com").1 (by decide),
   by decide⟩

/-- C9: `updateExtractionJob` merges the given fields into the stored
record (absent fields stay at their stored values, present fields win),
re-stores the merged record under the same id without touching any other
id, and treats an absent id as a `none` signal that leaves the store
unmodified. -/
theorem c9_update_merge_semantics (st : Store) (id : String) (u : JobUpdate) :
    (getJob st id = none → updateExtractionJob st id u = (none, st)) ∧
    (∀ j, getJob st id = some j →
      (updateExtractionJob st id u).1 = some (mergeJob j u) ∧
      getJob (updateExtractionJob st id u).2 id = some (mergeJob j u) ∧
      (∀ id', ¬(id' = id) →
        getJob (updateExtractionJob st id u).2 id' = getJob st id') ∧
      (u.id = none → (mergeJob j u).id = j.id) ∧
      (u.url = none → (mergeJob j u).url = j.url) ∧
      (u.domain = none → (mergeJob j u).domain = j.domain) ∧
      (u.status = none → (mergeJob j u).status = j.status) ∧
      (u.totalFiles = none → (mergeJob j u).totalFiles = j.totalFiles) ∧
      (u.successfulFiles = none →
        (mergeJob j u).successfulFiles = j.successfulFiles) ∧
      (u.failedFiles = none → (mergeJob j u).failedFiles = j.failedFiles) ∧
      (u.totalSize = none → (mergeJob j u).totalSize = j.totalSize) ∧
      (u.logs = none → (mergeJob j u).logs = j.logs) ∧
      (u.createdAt = none → (mergeJob j u).createdAt = j.createdAt) ∧
      (u.completedAt = none → (mergeJob j u).completedAt = j.completedAt) ∧
      (∀ s, u.status = some s → (mergeJob j u).status = s) ∧
      (∀ n, u.totalFiles = some n → (mergeJob j u).totalFiles = n) ∧
      (∀ n, u.successfulFiles = some n → (mergeJob j u).successfulFiles = n) ∧
      (∀ n, u.failedFiles = some n → (mergeJob j u).failedFiles = n) ∧
      (∀ n, u.totalSize = some n → (mergeJob j u).totalSize = n) ∧
      (∀ ls, u.logs = some ls → (mergeJob j u).logs = ls) ∧
      (∀ t, u.completedAt = some t → (mergeJob j u).completedAt = t)) := by
  constructor
  · intro h; simp [updateExtractionJob, h]
  · intro j h
    have hupd : updateExtractionJob st id u =
        (some (mergeJob j u), setJob st id (mergeJob j u)) := by
      simp [updateExtractionJob, h]
    rw [hupd]
    refine ⟨rfl, getJob_setJob_self st id _,
      fun id' hne => getJob_setJob_other st id id' _ hne,
      fun hn => by simp [mergeJob, hn], fun hn => by simp [mergeJob, hn],
      fun hn => by simp [mergeJob, hn], fun hn => by simp [mergeJob, hn],
      fun hn => by simp [mergeJob, hn], fun hn => by simp [mergeJob, hn],
      fun hn => by simp [mergeJob, hn], fun hn => by simp [mergeJob, hn],
      fun hn => by simp [mergeJob, hn], fun hn => by simp [mergeJob, hn],
      fun hn => by simp [mergeJob, hn],
      fun s hs => by simp [mergeJob, hs], fun n hn => by simp [mergeJob, hn],
      fun n hn => by simp [mergeJob, hn], fun n hn => by simp [mergeJob, hn],
      fun n hn => by simp [mergeJob, hn], fun ls hl => by simp [mergeJob, hl],
      fun t ht => by simp [mergeJob, ht]⟩

/-- C9 witnessed on a two-job store: the update with only `status` and
`totalFiles` present merges those two fields, leaves `totalSize` alone,
and does not disturb the other job. -/
theorem c9_update_merge_semantics_witness :
    getJob storeA "job-1" = some job3 ∧
    (updateExtractionJob storeA "job-1" updA).1 = some (mergeJob job3 updA) ∧
    getJob (updateExtractionJob storeA "job-1" updA).2 "job-9" =
      getJob storeA "job-9" ∧
    (mergeJob job3 updA).totalSize = job3.totalSize ∧
    (mergeJob job3 updA).status = JobStatus.processing ∧
    (mergeJob job3 updA).totalFiles = 4 := by
  obtain ⟨h1, h2, h3, f1, f2, f3, f4, f5, f6, f7, f8, f9, f10, f11,
          g1, g2, g3, g4, g5, g6, g7⟩ :=
    (c9_update_merge_semantics storeA "job-1" updA).2 job3 (by decide)
  exact ⟨by decide, h1, h3 "job-9" (by decide), f8 (by decide),
         g1 JobStatus.processing (by decide), g2 4 (by decide)⟩

/-- C6: discovery keeps exactly the trimmed, non-empty references that
resolve with a `.js` path (case-insensitive), drops unresolvable
references without failing, and deduplicates by exact string equality
while preserving first-seen order (every element of the result is a
candidate, the result is duplicate-free, and its elements appear ordered
by first occurrence among the candidates). -/
theorem c6_discovery_filter_dedup (env : Env) (srcs : List String)
    (base : String) :
    (∀ u, u ∈ findJsUrls env srcs base →
      ∃ s, s ∈ srcs ∧ ¬(trimChars s.toList = []) ∧
        ∃ r, env.resolve (String.mk (trimChars s.toList)) base = some r ∧
          endsWithChars (lowerChars r.pathname.toList) ['.', 'j', 's'] = true ∧
          u = r.toStr) ∧
    (findJsUrls env srcs base).Nodup ∧
    (findJsUrls env srcs base).Pairwise
      (fun a b => firstIdx (jsCandidates env srcs base) a <
                  firstIdx (jsCandidates env srcs base) b) ∧
    (∀ u, u ∈ findJsUrls env srcs base ↔ u ∈ jsCandidates env srcs base) ∧
    (∀ s rest, env.resolve (String.mk (trimChars s.toList)) base = none →
      findJsUrls env (s :: rest) base = findJsUrls env rest base) := by
  refine ⟨?_, nodup_dedupFirst _ _, pairwise_firstIdx_dedupFirst _ _, ?_, ?_⟩
  · intro u hu
    have hu' : u ∈ jsCandidates env srcs base :=
      ((mem_dedupFirst _ _ _).mp hu).1
    rw [jsCandidates, List.mem_filterMap] at hu'
    obtain ⟨s, hs, hf⟩ := hu'
    refine ⟨s, hs, ?_⟩
    rw [jsCandidate] at hf
    split at hf
    · cases hf
    · rename_i ht
      split at hf
      · cases hf
      · rename_i r hr
        split at hf
        · rename_i he
          exact ⟨ht, r, hr, he, (Option.some.inj hf).symm⟩
        · cases hf
  · intro u
    constructor
    · intro h; exact ((mem_dedupFirst _ _ _).mp h).1
    · intro h; exact (mem_dedupFirst _ _ _).mpr ⟨h, by simp⟩
  · intro s rest hres
    have hc : jsCandidate env base s = none := by
      rw [jsCandidate]
      by_cases ht : trimChars s.toList = []
      · rw [if_pos ht]
      · rw [if_neg ht, hres]
    rw [findJsUrls, findJsUrls, jsCandidates, jsCandidates,
        List.filterMap_cons_none hc]

/-- C6 witnessed on the discovery fixture: the duplicated reference is
kept once, and the first result is traceable to its source attribute. -/
theorem c6_discovery_filter_dedup_witness :
    findJsUrls envDisc srcsDisc "https://h/" =
      ["https://h/x.js", "https://h/Y.JS"] ∧
    (∃ s, s ∈ srcsDisc ∧ ¬(trimChars s.toList = []) ∧
      ∃ r, envDisc.resolve (String.mk (trimChars s.toList)) "https://h/" = some r ∧
        endsWithChars (lowerChars r.pathname.toList) ['.', 'j', 's'] = true ∧
        "https://h/x.js" = r.toStr) :=
  ⟨by decide,
   (c6_discovery_filter_dedup envDisc srcsDisc "https://h/").1
     "https://h/x.js" (by decide)⟩

/-- C4: when discovery finds no resource URLs on a successfully fetched
page, the job is updated with `totalFiles = 0`, reaches `completed` with
`completedAt` set, no resource outcomes are created, nothing is fetched,
and no manifest is written — a valid, non-error terminal state. -/
theorem c4_zero_resources_completed (env : Env) (job0 : ExtractionJob)
    (pu : UrlParts) (page : FetchOk)
    (hp : parseUrl (normalizeUrl job0.url) = some pu)
    (hf : env.pageFetch = Except.ok page)
    (hz : findJsUrls env (env.scriptSrcs page.body) (normalizeUrl job0.url) = []) :
    (extractJavaScript env job0).job.status = .completed ∧
    (extractJavaScript env job0).job.totalFiles = 0 ∧
    (extractJavaScript env job0).job.completedAt = some env.now ∧
    (extractJavaScript env job0).outcomes = [] ∧
    (extractJavaScript env job0).attempted = [] ∧
    (extractJavaScript env job0).manifest = none := by
  simp [extractJavaScript, hp, hf, hz, mergeJob, addLog]

/-- C4 witnessed on the zero-resource fixture. -/
theorem c4_zero_resources_completed_witness :
    (extractJavaScript envZero jobZ).job.status = .completed ∧
    (extractJavaScript envZero jobZ).job.totalFiles = 0 ∧
    (extractJavaScript envZero jobZ).job.completedAt = some envZero.now ∧
    (extractJavaScript envZero jobZ).outcomes = [] ∧
    (extractJavaScript envZero jobZ).attempted = [] ∧
    (extractJavaScript envZero jobZ).manifest = none :=
  c4_zero_resources_completed envZero jobZ puZ page3 (by decide) rfl (by decide)

/-- C5: when the initial page fetch fails, the run aborts — the job
reaches `failed` with `completedAt` set, the failure is logged as an
error entry, no resource outcomes are created, nothing is fetched, and
`totalFiles` remains 0. -/
theorem c5_page_fetch_failure_aborts (env : Env) (job0 : ExtractionJob)
    (pu : UrlParts) (e : FetchErr)
    (hp : parseUrl (normalizeUrl job0.url) = some pu)
    (hf : env.pageFetch = Except.error e)
    (h0 : job0.totalFiles = 0) :
    (extractJavaScript env job0).job.status = .failed ∧
    (extractJavaScript env job0).job.completedAt = some env.now ∧
    (extractJavaScript env job0).outcomes = [] ∧
    (extractJavaScript env job0).attempted = [] ∧
    (extractJavaScript env job0).manifest = none ∧
    (extractJavaScript env job0).job.totalFiles = 0 ∧
    LogEntry.mk .error
        ("Extraction failed: " ++ pipelineErrMsg e (normalizeUrl job0.url)) ∈
      (extractJavaScript env job0).job.logs := by
  simp [extractJavaScript, hp, hf, failJob, addLog, mergeJob, h0]

/-- C5 witnessed on the failing-page fixture. -/
theorem c5_page_fetch_failure_aborts_witness :
    (extractJavaScript envFail jobZ).job.status = .failed ∧
    (extractJavaScript envFail jobZ).job.completedAt = some envFail.now ∧
    (extractJavaScript envFail jobZ).outcomes = [] ∧
    (extractJavaScript envFail jobZ).attempted = [] ∧
    (extractJavaScript envFail jobZ).manifest = none ∧
    (extractJavaScript envFail jobZ).job.totalFiles = 0 ∧
    LogEntry.mk .error
        ("Extraction failed: " ++ pipelineErrMsg err503 (normalizeUrl jobZ.url)) ∈
      (extractJavaScript envFail jobZ).job.logs :=
  c5_page_fetch_failure_aborts envFail jobZ puZ err503 (by decide) rfl rfl

/-- C1: when the page fetch succeeds (and hence discovery runs), every
discovered URL is attempted exactly once, in discovery order (the fetch
trace equals the duplicate-free discovery list), no per-resource failure
aborts the loop (the job always reaches `completed`, with one outcome row
per URL), and for a non-empty discovery list the manifest carries one
line per URL in order, tagged `OK` exactly for the iterations whose
attempt succeeded, with `successfulFiles`/`failedFiles` counting those
tags. -/
theorem c1_per_resource_isolation (env : Env) (job0 : ExtractionJob)
    (pu : UrlParts) (page : FetchOk) (urls : List String)
    (hp : parseUrl (normalizeUrl job0.url) = some pu)
    (hf : env.pageFetch = Except.ok page)
    (hu : urls = findJsUrls env (env.scriptSrcs page.body) (normalizeUrl job0.url)) :
    (extractJavaScript env job0).attempted = urls ∧
    urls.Nodup ∧
    (extractJavaScript env job0).job.status = .completed ∧
    (extractJavaScript env job0).outcomes.length = urls.length ∧
    (¬(urls = []) → ∃ m, (extractJavaScript env job0).manifest = some m ∧
      m.lines.map ManifestLine.tag =
        (tagList env 0 urls).map (fun b => if b then LineTag.ok else LineTag.error) ∧
      m.lines.map ManifestLine.url = urls ∧
      (extractJavaScript env job0).job.successfulFiles =
        (tagList env 0 urls).count true ∧
      (extractJavaScript env job0).job.failedFiles =
        urls.length - (tagList env 0 urls).count true) := by
  by_cases hz : urls = []
  · subst hz
    have hz' : findJsUrls env (env.scriptSrcs page.body) (normalizeUrl job0.url)
        = [] := hu.symm
    refine ⟨?_, List.nodup_nil, ?_, ?_, fun hne => absurd rfl hne⟩ <;>
      simp [extractJavaScript, hp, hf, hz', mergeJob, addLog]
  · have hnd : urls.Nodup := by
      rw [hu]; exact nodup_dedupFirst _ _
    have hlen : ¬(urls.length = 0) := fun h => hz (List.length_eq_zero.mp h)
    subst hu
    obtain ⟨l1, l2, l3, l4, l5, l6⟩ :=
      runLoop_spec env job0.id
        (findJsUrls env (env.scriptSrcs page.body) (normalizeUrl job0.url)).length
        (findJsUrls env (env.scriptSrcs page.body) (normalizeUrl job0.url)) 0
        ⟨0, 0, [], [], [], []⟩
    refine ⟨?_, hnd, ?_, ?_, fun hne => ?_⟩
    · simp [extractJavaScript, hp, hf, hlen, mergeJob, addLog, l1]
    · simp [extractJavaScript, hp, hf, hlen, mergeJob, addLog]
    · simp [extractJavaScript, hp, hf, hlen, mergeJob, addLog, l2]
    · refine ⟨⟨normalizeUrl job0.url,
        (findJsUrls env (env.scriptSrcs page.body) (normalizeUrl job0.url)).length,
        (runLoop env job0.id
          (findJsUrls env (env.scriptSrcs page.body) (normalizeUrl job0.url)).length
          0 (findJsUrls env (env.scriptSrcs page.body) (normalizeUrl job0.url))
          ⟨0, 0, [], [], [], []⟩).mlines⟩, ?_, ?_, ?_, ?_, ?_⟩
      · simp [extractJavaScript, hp, hf, hlen, mergeJob, addLog]
      · simpa using l3
      · simpa using l4
      · simp [extractJavaScript, hp, hf, hlen, mergeJob, addLog, l6]
      · simp [extractJavaScript, hp, hf, hlen, mergeJob, addLog, l6]

/-- C1 witnessed on the three-resource fixture whose second fetch fails:
all three URLs are attempted in order, the job completes with
`successfulFiles = 2`, `failedFiles = 1`, and the manifest's tags are
`OK`, `ERROR`, `OK`. -/
theorem c1_per_resource_isolation_witness :
    (extractJavaScript env3 job3).attempted =
      ["https://example.com/a.js", "https://example.com/b.js",
       "https://example.com/c.js"] ∧
    (extractJavaScript env3 job3).job.status = .completed ∧
    (extractJavaScript env3 job3).job.successfulFiles = 2 ∧
    (extractJavaScript env3 job3).job.failedFiles = 1 ∧
    (∃ m, (extractJavaScript env3 job3).manifest = some m ∧
      m.lines.map ManifestLine.tag = [LineTag.ok, LineTag.error, LineTag.ok]) := by
  obtain ⟨ha, hn, hs, ho, hm⟩ :=
    c1_per_resource_isolation env3 job3 pu3 page3
      ["https://example.com/a.js", "https://example.com/b.js",
       "https://example.com/c.js"]
      (by decide) rfl (by decide)
  obtain ⟨m, hm1, hm2, hm3, hsf, hff⟩ := hm (by decide)
  refine ⟨ha, hs, ?_, ?_, m, hm1, ?_⟩
  · rw [hsf]; decide
  · rw [hff]; decide
  · rw [hm2]; decide

/-- C2: starting from a freshly created job (all counters 0), every run
terminates in `completed` or `failed` with
`successfulFiles + failedFiles = totalFiles`, `totalFiles` equal to the
number of discovered resource URLs (0 when the pipeline fails before
discovery), and — whenever the run completes — exactly one manifest data
line per discovered URL. -/
theorem c2_counter_invariants (env : Env) (job0 : ExtractionJob)
    (h0 : job0.totalFiles = 0) (h1 : job0.successfulFiles = 0)
    (h2 : job0.failedFiles = 0) :
    ((extractJavaScript env job0).job.status = .completed ∨
     (extractJavaScript env job0).job.status = .failed) ∧
    (extractJavaScript env job0).job.successfulFiles +
        (extractJavaScript env job0).job.failedFiles =
      (extractJavaScript env job0).job.totalFiles ∧
    (extractJavaScript env job0).job.totalFiles =
      (discoveredUrls env job0).length ∧
    ((extractJavaScript env job0).job.status = .completed →
      manifestLineCount (extractJavaScript env job0) =
        (discoveredUrls env job0).length) := by
  rcases hp : parseUrl (normalizeUrl job0.url) with _ | pu
  · refine ⟨Or.inr ?_, ?_, ?_, ?_⟩ <;>
      simp [extractJavaScript, hp, discoveredUrls, failJob, addLog, mergeJob,
            manifestLineCount, h0, h1, h2]
  · rcases hf : env.pageFetch with e | page
    · refine ⟨Or.inr ?_, ?_, ?_, ?_⟩ <;>
        simp [extractJavaScript, hp, hf, discoveredUrls, failJob, addLog,
              mergeJob, manifestLineCount, h0, h1, h2]
    · by_cases hz :
        (findJsUrls env (env.scriptSrcs page.body) (normalizeUrl job0.url)).length = 0
      · refine ⟨Or.inl ?_, ?_, ?_, ?_⟩ <;>
          simp [extractJavaScript, hp, hf, hz, discoveredUrls,
                List.length_eq_zero.mp hz, manifestLineCount, mergeJob, addLog,
                h1, h2]
      · obtain ⟨l1, l2, l3, l4, l5, l6⟩ :=
          runLoop_spec env job0.id
            (findJsUrls env (env.scriptSrcs page.body) (normalizeUrl job0.url)).length
            (findJsUrls env (env.scriptSrcs page.body) (normalizeUrl job0.url)) 0
            ⟨0, 0, [], [], [], []⟩
        have hcnt : (tagList env 0
            (findJsUrls env (env.scriptSrcs page.body) (normalizeUrl job0.url))).count
              true ≤
            (findJsUrls env (env.scriptSrcs page.body) (normalizeUrl job0.url)).length := by
          have hle := List.count_le_length true
            (tagList env 0 (findJsUrls env (env.scriptSrcs page.body) (normalizeUrl job0.url)))
          simpa [tagList_length] using hle
        refine ⟨Or.inl ?_, ?_, ?_, ?_⟩
        · simp [extractJavaScript, hp, hf, hz, mergeJob, addLog]
        · simp [extractJavaScript, hp, hf, hz, mergeJob, addLog, l6]
          omega
        · simp [extractJavaScript, hp, hf, hz, discoveredUrls, mergeJob, addLog]
        · intro hcom
          simp [extractJavaScript, hp, hf, hz, discoveredUrls, manifestLineCount,
                mergeJob, addLog, l5]

/-- C2 witnessed on the three-resource fixture. -/
theorem c2_counter_invariants_witness :
    job3.totalFiles = 0 ∧ job3.successfulFiles = 0 ∧ job3.failedFiles = 0 ∧
    (extractJavaScript env3 job3).job.successfulFiles +
        (extractJavaScript env3 job3).job.failedFiles =
      (extractJavaScript env3 job3).job.totalFiles ∧
    (extractJavaScript env3 job3).job.totalFiles =
      (discoveredUrls env3 job3).length ∧
    ((extractJavaScript env3 job3).job.status = .completed →
      manifestLineCount (extractJavaScript env3 job3) =
        (discoveredUrls env3 job3).length) := by
  have h := c2_counter_invariants env3 job3 rfl rfl rfl
  exact ⟨rfl, rfl, rfl, h.2.1, h.2.2.1, h.2.2.2⟩
